import Mathlib

/-!
Shallow embedding of `spectra_lexer`'s Qt GUI adapter layer
(`spectra_lexer/objtree/qt.py` and `spectra_lexer/qt/window.py`).

Modelling conventions:
* Python `dict` objects are insertion-ordered association lists
  (`List (κ × ν)`); `dictGet` is `dict.get`, `dictSet` is item assignment
  (replace in place if the key exists, append otherwise), `dictGetD` is a
  `defaultdict` read.
* Python exceptions are the `PyExc` type; fallible operations return
  `Except PyExc`.  A `try`/`except` block becomes a `match` on that result.
* Qt objects that the code only constructs and hands back (`QColor`,
  `QSize`, `QIcon`) are plain records of their constructor arguments.
* Mutation of a Python object becomes explicit state passing; object
  identity (needed because `QModelIndex` stores a raw item pointer and
  tree items are mutated through shared references) is modelled by a heap
  of items addressed by `Nat` object ids.
* Calls into the Qt machinery that only notify the toolkit
  (`beginInsertRows` etc., window lifecycle calls) are recorded in an
  event trace.
-/

/-- A Python exception value.  The code under scrutiny never inspects the
exception it catches, so one constructor carrying the exception class name
suffices. -/
inductive PyExc where
  | mk (msg : String)
deriving DecidableEq

/-- `QColor(r, g, b, a)`; `QColor(r, g, b)` has full alpha 255. -/
structure QColorV where
  r : Nat
  g : Nat
  b : Nat
  a : Nat
deriving DecidableEq

/-- `QColor(r, g, b)` with the default alpha of 255. -/
def mkQColor (r g b : Nat) : QColorV := ⟨r, g, b, 255⟩

/-- `SVGIconRenderer.TRANSPARENT_COLOR = QColor(255, 255, 255, 0)`. -/
def TRANSPARENT_COLOR : QColorV := ⟨255, 255, 255, 0⟩

/-- Valid input data types for `QSvgRenderer`
(`XMLIconData = Union[bytes, bytearray, str]`).  The three union members
are kept apart: a Python `str` is never equal to a bytes-like object, a
`bytes` and a `bytearray` with the same content compare equal under `==`
but only `bytes` (and `str`) are hashable — a `bytearray` used as a dict
key raises `TypeError` before any equality test runs, so a `bytearray`
never becomes a dict key and the Lean equality used for dict keys only
ever has to agree with Python `==` on `bytes` and `str`, where it
does. -/
inductive XMLIconData where
  | bytes (b : List Nat)
  | bytearray (b : List Nat)
  | str (s : String)
deriving DecidableEq

/-- Whether Python can hash the value: `bytes` and `str` are hashable,
`bytearray` is not. -/
def XMLIconData.hashable : XMLIconData → Bool
  | .bytearray _ => false
  | _ => true

/-- Python `==` on the union: bytes-like values compare by content (so a
`bytes` equals a `bytearray` with the same content), a `str` never
equals a bytes-like value. -/
def XMLIconData.pyEq : XMLIconData → XMLIconData → Bool
  | .str a, .str b => a == b
  | .bytes a, .bytes b => a == b
  | .bytes a, .bytearray b => a == b
  | .bytearray a, .bytes b => a == b
  | .bytearray a, .bytearray b => a == b
  | _, _ => false

/-- UTF-8 encoding of one Unicode code point, as byte values. -/
def utf8Bytes (c : Char) : List Nat :=
  let n := c.toNat
  if n < 0x80 then [n]
  else if n < 0x800 then [0xC0 + n / 64, 0x80 + n % 64]
  else if n < 0x10000 then [0xE0 + n / 4096, 0x80 + n / 64 % 64, 0x80 + n % 64]
  else [0xF0 + n / 262144, 0x80 + n / 4096 % 64, 0x80 + n / 64 % 64, 0x80 + n % 64]

/-- `data.encode('utf-8')` for a `str`; the identity on byte inputs.
This is the conversion done inside `SVGIconRenderer._render`. -/
def XMLIconData.toBytes : XMLIconData → List Nat
  | .bytes b => b
  | .bytearray b => b
  | .str s => s.data.flatMap utf8Bytes

/-- A `QIcon` as produced by `SVGIconRenderer._render`: the rendering
pipeline (`QSvgRenderer` → `QImage` → `QPainter` → `QPixmap` → `QIcon`) is
deterministic in the SVG bytes, the background color and the render hints,
so the icon is modelled as a record of those inputs. -/
structure QIconV where
  source : List Nat
  bg : QColorV
deriving DecidableEq

/-- Python `dict.get(k)` / `d[k]` lookup on an insertion-ordered dict. -/
def dictGet {κ ν : Type} [DecidableEq κ] : List (κ × ν) → κ → Option ν
  | [], _ => none
  | (k0, v0) :: rest, k => if k = k0 then some v0 else dictGet rest k

/-- Python `d[k] = v`: replace the value in place if the key is present,
append a new entry otherwise (dicts preserve insertion order). -/
def dictSet {κ ν : Type} [DecidableEq κ] : List (κ × ν) → κ → ν → List (κ × ν)
  | [], k, v => [(k, v)]
  | (k0, v0) :: rest, k, v =>
    if k = k0 then (k, v) :: rest else (k0, v0) :: dictSet rest k v

/-- A `defaultdict` read: the default where the key is absent.  (The real
`defaultdict.__getitem__` also inserts the default; no code here observes
dict membership or size, so the insertion is unobservable.) -/
def dictGetD {κ ν : Type} [DecidableEq κ] (d : List (κ × ν)) (k : κ) (v0 : ν) : ν :=
  (dictGet d k).getD v0

theorem dictGet_dictSet_self {κ ν : Type} [DecidableEq κ]
    (d : List (κ × ν)) (k : κ) (v : ν) : dictGet (dictSet d k v) k = some v := by
  induction d with
  | nil => simp [dictSet, dictGet]
  | cons hd tl ih =>
    obtain ⟨k0, v0⟩ := hd
    by_cases h : k = k0 <;> simp [dictSet, dictGet, h, ih]

theorem dictGet_dictSet_ne {κ ν : Type} [DecidableEq κ]
    (d : List (κ × ν)) (k k' : κ) (v : ν) (h : k' ≠ k) :
    dictGet (dictSet d k v) k' = dictGet d k' := by
  induction d with
  | nil => simp [dictSet, dictGet, h]
  | cons hd tl ih =>
    obtain ⟨k0, v0⟩ := hd
    by_cases h0 : k = k0
    · subst h0
      simp [dictSet, dictGet, h]
    · by_cases h1 : k' = k0 <;> simp [dictSet, dictGet, h0, h1, ih]

theorem length_dictSet_fresh {κ ν : Type} [DecidableEq κ]
    (d : List (κ × ν)) (k : κ) (v : ν) (h : dictGet d k = none) :
    (dictSet d k v).length = d.length + 1 := by
  induction d with
  | nil => simp [dictSet]
  | cons hd tl ih =>
    obtain ⟨k0, v0⟩ := hd
    by_cases h0 : k = k0
    · simp [dictGet, h0] at h
    · simp [dictGet, h0] at h
      simp [dictSet, h0, ih h]

/-- `SVGIconRenderer`: renders SVG bytes data to `QIcon`s and caches the
results.  `_render_hints` never influences anything observable here and is
omitted from the record. -/
structure SVGIconRenderer where
  bg_color : QColorV
  cache : List (XMLIconData × QIconV)

/-- `SVGIconRenderer(bg_color)`: empty cache. -/
def SVGIconRenderer.init (bg : QColorV) : SVGIconRenderer := ⟨bg, []⟩

/-- `SVGIconRenderer._render(data)`: encode a `str` to UTF-8 bytes, then
render.  Rendering itself is a Qt pipeline deterministic in the bytes and
background color. -/
def SVGIconRenderer.renderIcon (r : SVGIconRenderer) (data : XMLIconData) : QIconV :=
  { source := data.toBytes, bg := r.bg_color }

/-- `SVGIconRenderer.render(data)`: the membership test
`data not in self._cache` hashes `data`, so an unhashable `bytearray`
input raises `TypeError` there, with no handler; for a hashable input,
return the icon from the cache if present, otherwise render, store under
the key `data` as given, and return the stored icon.  The `Bool` result
records whether `_render` was invoked (a fresh rendering happened). -/
def SVGIconRenderer.render (r : SVGIconRenderer) (data : XMLIconData) :
    Except PyExc (QIconV × SVGIconRenderer × Bool) :=
  if data.hashable then
    match dictGet r.cache data with
    | some icon => .ok (icon, r, false)
    | none =>
      let icon := r.renderIcon data
      .ok (icon, { r with cache := dictSet r.cache data icon }, true)
  else .error (PyExc.mk "TypeError")

/-- `Qt.ItemDataRole.DisplayRole` (roles are really ints). -/
def DisplayRole : Nat := 0

/-- `Qt.ItemDataRole.DecorationRole`. -/
def DecorationRole : Nat := 1

/-- `Qt.ItemDataRole.EditRole`. -/
def EditRole : Nat := 2

/-- `Qt.ItemDataRole.ToolTipRole`. -/
def ToolTipRole : Nat := 3

/-- `Qt.ItemDataRole.ForegroundRole`. -/
def ForegroundRole : Nat := 9

/-- `Qt.ItemDataRole.SizeHintRole`. -/
def SizeHintRole : Nat := 13

/-- A value stored under a role key, or returned by `headerData`: the code
stores strings (`DisplayRole`, `ToolTipRole`), colors (`ForegroundRole`),
icons (`DecorationRole`) and `QSize` values (`SizeHintRole`). -/
inductive RoleValue where
  | str (s : String)
  | color (c : QColorV)
  | icon (i : QIconV)
  | size (w h : Nat)
deriving DecidableEq

/-- A `QModelIndex`: either the invalid root sentinel `QModelIndex()`
(`TreeItemModel._ROOT_IDX`), or an index made by
`createIndex(row, col, item)`, which stores the row, the column and the
item's object identity (the internal pointer). -/
inductive ModelIndex where
  | root
  | mk (row : Int) (col : Int) (oid : Nat)
deriving DecidableEq

/-- `TreeItem`: a single item in the tree.  Callbacks are modelled by
their behaviour when invoked: `Except.error` is the callback raising an
exception, `Except.ok` a normal return.  `children` is the iterable
collection of child data objects (`_children`, `()` initially). -/
structure TreeItem (α : Type) where
  parent : ModelIndex
  roles : List (Nat × RoleValue)
  edit_cb : Option (String → Except PyExc Unit)
  delete_cb : Option (Unit → Except PyExc Unit)
  children : List α

/-- `TreeItem(parent)`: fresh item with empty role dict, no callbacks, no
children. -/
def TreeItem.new {α : Type} (parent : ModelIndex) : TreeItem α :=
  { parent := parent, roles := [], edit_cb := none, delete_cb := none, children := [] }

/-- `TreeItem.role_data(role)`: `self._roles.get(role)`. -/
def TreeItem.role_data {α : Type} (it : TreeItem α) (role : Nat) : Option RoleValue :=
  dictGet it.roles role

/-- `TreeItem.has_children()`: `bool(self._children)`. -/
def TreeItem.has_children {α : Type} (it : TreeItem α) : Bool :=
  !it.children.isEmpty

/-- `TreeItem.set_text(text)`. -/
def TreeItem.set_text {α : Type} (it : TreeItem α) (text : String) : TreeItem α :=
  { it with roles := dictSet it.roles DisplayRole (.str text) }

/-- `TreeItem.set_color(r, g, b)`: stores `QColor(r, g, b)` under
`ForegroundRole`. -/
def TreeItem.set_color {α : Type} (it : TreeItem α) (r g b : Nat) : TreeItem α :=
  { it with roles := dictSet it.roles ForegroundRole (.color (mkQColor r g b)) }

/-- `TreeItem.set_tooltip(tooltip)`: stores `f'<pre>{tooltip}</pre>'`
under `ToolTipRole`. -/
def TreeItem.set_tooltip {α : Type} (it : TreeItem α) (tooltip : String) : TreeItem α :=
  { it with roles := dictSet it.roles ToolTipRole (.str ("<pre>" ++ tooltip ++ "</pre>")) }

/-- `TreeItem.set_icon(icon)`. -/
def TreeItem.set_icon {α : Type} (it : TreeItem α) (icon : QIconV) : TreeItem α :=
  { it with roles := dictSet it.roles DecorationRole (.icon icon) }

/-- `TreeItem.set_edit_cb(callback)`. -/
def TreeItem.set_edit_cb {α : Type} (it : TreeItem α)
    (cb : String → Except PyExc Unit) : TreeItem α :=
  { it with edit_cb := some cb }

/-- `TreeItem.set_delete_cb(callback)`. -/
def TreeItem.set_delete_cb {α : Type} (it : TreeItem α)
    (cb : Unit → Except PyExc Unit) : TreeItem α :=
  { it with delete_cb := some cb }

/-- `TreeItem.set_children(children)`. -/
def TreeItem.set_children {α : Type} (it : TreeItem α) (cs : List α) : TreeItem α :=
  { it with children := cs }

/-- `TreeItem._edit_failed()`: turn the item red with
`self.set_color(192, 0, 0)` (it never raises: it is one dict store). -/
def TreeItem.editFailed {α : Type} (it : TreeItem α) : TreeItem α :=
  it.set_color 192 0 0

/-- `TreeItem.edit(new_value)`.  The whole body sits in a
`try`/`except Exception` block, so a callback exception is absorbed into
the `(false, reddened item)` outcome and the embedding is a total
function: no exception propagates to the caller. -/
def TreeItem.edit {α : Type} (it : TreeItem α) (new_value : String) :
    Bool × TreeItem α :=
  match it.edit_cb with
  | none => (false, it.editFailed)
  | some cb =>
    match cb new_value with
    | .ok _ => (true, it)
    | .error _ => (false, it.editFailed)

/-- `TreeItem.delete()`: same `try`/`except Exception` structure as
`edit`, on the delete callback. -/
def TreeItem.delete {α : Type} (it : TreeItem α) : Bool × TreeItem α :=
  match it.delete_cb with
  | none => (false, it.editFailed)
  | some cb =>
    match cb () with
    | .ok _ => (true, it)
    | .error _ => (false, it.editFailed)

/-- `TreeColumn`: heading, width, and the subclass-provided
`_format_item` hook (abstract in the source; an arbitrary pure
transformation of the fresh item here). -/
structure TreeColumn (α : Type) where
  heading : String
  width : Nat
  format : TreeItem α → α → TreeItem α

/-- `TreeColumn.generate_item(data, parent)`: create a fresh
`TreeItem(parent)` and format it. -/
def TreeColumn.generate_item {α : Type} (col : TreeColumn α) (data : α)
    (parent : ModelIndex) : TreeItem α :=
  col.format (TreeItem.new parent) data

/-- Python sequence indexing `l[i]`: a non-negative index must be below
the length, a negative index counts from the end; anything else raises
`IndexError`.  `none` is the `IndexError` outcome. -/
def pyIndexOpt {γ : Type} (l : List γ) (i : Int) : Option γ :=
  if 0 ≤ i then l.get? i.toNat
  else if 0 ≤ i + l.length then l.get? (i + l.length).toNat
  else none

/-- `l[i]` with the `IndexError` made explicit. -/
def pyIndexE {γ : Type} (l : List γ) (i : Int) : Except PyExc γ :=
  match pyIndexOpt l i with
  | some x => .ok x
  | none => .error (PyExc.mk "IndexError")

/-- One call into the Qt model machinery made by `TreeItemModel.expand`:
`beginRemoveRows(parent, first, last)` / `endRemoveRows()` /
`beginInsertRows(parent, first, last)` / `endInsertRows()`.  Qt treats
`first` and `last` as an inclusive row range. -/
inductive Notif where
  | beginRemoveRows (parent : ModelIndex) (first last : Nat)
  | endRemoveRows
  | beginInsertRows (parent : ModelIndex) (first last : Nat)
  | endInsertRows
deriving DecidableEq

/-- `Qt.Orientation`: horizontal or vertical header. -/
inductive QtOrientation where
  | horizontal
  | vertical
deriving DecidableEq

/-- `TreeItemModel`: the Python object graph flattened out.  `heap` is the
store of live `TreeItem` objects addressed by object id; `idx_to_item` and
`idx_to_children` hold object ids where the Python dicts hold the items
themselves; `next_oid` allocates fresh object identities;
`notifications` is the trace of begin/end insert/remove calls made to the
Qt base class. -/
structure TreeItemModel (α : Type) where
  heap : List (Nat × TreeItem α)
  idx_to_item : List (ModelIndex × Nat)
  idx_to_children : List (ModelIndex × List (List Nat))
  columns : List (TreeColumn α)
  child_limit : Nat
  header_height : Nat
  next_oid : Nat
  notifications : List Notif

/-- `TreeItemModel(root_item, columns, child_limit=…, header_height=…)`:
the root item is the only live object and is mapped from the root
sentinel index. -/
def TreeItemModel.init {α : Type} (root_item : TreeItem α)
    (columns : List (TreeColumn α)) (child_limit header_height : Nat) :
    TreeItemModel α :=
  { heap := [(0, root_item)]
    idx_to_item := [(ModelIndex.root, 0)]
    idx_to_children := []
    columns := columns
    child_limit := child_limit
    header_height := header_height
    next_oid := 1
    notifications := [] }

/-- The body of `TreeItemModel.index` before its `except IndexError`
handler: `item = self._idx_to_children[parent][row][col]` (either list
index may raise `IndexError`; the `defaultdict` read cannot raise), then
`idx = self.createIndex(row, col, item)` and
`self._idx_to_item[idx] = item`. -/
def TreeItemModel.indexInner {α : Type} (m : TreeItemModel α)
    (row col : Int) (parent : ModelIndex) :
    Except PyExc (ModelIndex × TreeItemModel α) :=
  match pyIndexE (dictGetD m.idx_to_children parent []) row with
  | .error e => .error e
  | .ok rowList =>
    match pyIndexE rowList col with
    | .error e => .error e
    | .ok oid =>
      let idx := ModelIndex.mk row col oid
      .ok (idx, { m with idx_to_item := dictSet m.idx_to_item idx oid })

/-- `TreeItemModel.index(row, col, parent)`: the `try` body with
`except IndexError: return self._ROOT_IDX`.  Only `IndexError` can arise
in the body, so the handler makes the method total. -/
def TreeItemModel.index {α : Type} (m : TreeItemModel α)
    (row col : Int) (parent : ModelIndex) : ModelIndex × TreeItemModel α :=
  match m.indexInner row col parent with
  | .ok res => res
  | .error _ => (ModelIndex.root, m)

/-- The child object id at `(row, col)` of the materialized child grid of
`parent`, under Python indexing semantics (negative indices count from
the end). -/
def TreeItemModel.gridChildAt {α : Type} (m : TreeItemModel α)
    (parent : ModelIndex) (row col : Int) : Option Nat :=
  (pyIndexOpt (dictGetD m.idx_to_children parent []) row).bind
    (fun rowList => pyIndexOpt rowList col)

/-- `TreeItemModel.data(idx, role)`: `self._idx_to_item[idx]` may raise
`KeyError`; then `role_data` on the item. -/
def TreeItemModel.data {α : Type} (m : TreeItemModel α) (idx : ModelIndex)
    (role : Nat) : Except PyExc (Option RoleValue) :=
  match dictGet m.idx_to_item idx with
  | none => .error (PyExc.mk "KeyError")
  | some oid =>
    match dictGet m.heap oid with
    | none => .error (PyExc.mk "dangling item pointer")
    | some it => .ok (it.role_data role)

/-- `TreeItemModel.rowCount(parent)`:
`len(self._idx_to_children[parent])`. -/
def TreeItemModel.rowCount {α : Type} (m : TreeItemModel α)
    (parent : ModelIndex) : Nat :=
  (dictGetD m.idx_to_children parent []).length

/-- `TreeItemModel.columnCount(parent)`: `len(self._columns)`. -/
def TreeItemModel.columnCount {α : Type} (m : TreeItemModel α) : Nat :=
  m.columns.length

/-- `TreeItemModel.headerData(section, orientation, role)`: headings for
`DisplayRole`, a `QSize(width, header_height)` for `SizeHintRole`, both
only for the horizontal header; `None` (falling off the end of the
function) everywhere else.  `self._columns[section]` raises `IndexError`
for an out-of-range section. -/
def TreeItemModel.headerData {α : Type} (m : TreeItemModel α)
    (sec : Int) (orientation : QtOrientation) (role : Nat) :
    Except PyExc (Option RoleValue) :=
  if orientation = QtOrientation.horizontal then
    if role = DisplayRole then
      match pyIndexE m.columns sec with
      | .error e => .error e
      | .ok col => .ok (some (.str col.heading))
    else if role = SizeHintRole then
      match pyIndexE m.columns sec with
      | .error e => .error e
      | .ok col => .ok (some (.size col.width m.header_height))
    else .ok none
  else .ok none

/-- One row of freshly generated child items:
`[col.generate_item(data, idx) for col in columns]`, allocating an object
id per item.  Returns the row of ids, the new heap entries in allocation
order, and the next free id. -/
def genRow {α : Type} (cols : List (TreeColumn α)) (idx : ModelIndex)
    (data : α) (oid0 : Nat) : List Nat × List (Nat × TreeItem α) × Nat :=
  match cols with
  | [] => ([], [], oid0)
  | col :: rest =>
    let item := col.generate_item data idx
    let (oids, heapAdds, oid1) := genRow rest idx data (oid0 + 1)
    (oid0 :: oids, (oid0, item) :: heapAdds, oid1)

/-- All child rows of `expand`'s insertion loop:
one `genRow` per child data object. -/
def genRows {α : Type} (cols : List (TreeColumn α)) (idx : ModelIndex)
    (datas : List α) (oid0 : Nat) :
    List (List Nat) × List (Nat × TreeItem α) × Nat :=
  match datas with
  | [] => ([], [], oid0)
  | d :: rest =>
    let (row, h1, oid1) := genRow cols idx d oid0
    let (rows, h2, oid2) := genRows cols idx rest oid1
    (row :: rows, h1 ++ h2, oid2)

/-- `TreeItemModel.expand(idx)`: if the grid under `idx` is non-empty,
call `beginRemoveRows(idx, 0, len(child_rows))`, clear it and call
`endRemoveRows()`; then `child_data = list(islice(item, child_limit))`
over `item = self._idx_to_item[idx]` (a `KeyError` if `idx` is unknown),
and between `beginInsertRows(idx, 0, len(child_data))` and
`endInsertRows()` append one row of freshly generated items per data
object.  An exceptional outcome aborts the call (`Except.error`). -/
def TreeItemModel.expand {α : Type} (m : TreeItemModel α)
    (idx : ModelIndex) : Except PyExc (TreeItemModel α) :=
  let child_rows := dictGetD m.idx_to_children idx []
  let m1 :=
    if child_rows.length = 0 then m
    else
      { m with
        notifications := m.notifications ++
          [Notif.beginRemoveRows idx 0 child_rows.length, Notif.endRemoveRows]
        idx_to_children := dictSet m.idx_to_children idx [] }
  match dictGet m1.idx_to_item idx with
  | none => .error (PyExc.mk "KeyError")
  | some oid =>
    match dictGet m1.heap oid with
    | none => .error (PyExc.mk "dangling item pointer")
    | some item =>
      let child_data := item.children.take m1.child_limit
      let g := genRows m1.columns idx child_data m1.next_oid
      .ok { m1 with
        notifications := m1.notifications ++
          [Notif.beginInsertRows idx 0 child_data.length] ++ [Notif.endInsertRows]
        idx_to_children := dictSet m1.idx_to_children idx g.1
        heap := m1.heap ++ g.2.1
        next_oid := g.2.2 }

/-- `TreeItemModel.setData(idx, new_value, role)`: a falsy `new_value`
returns `False` at once; otherwise `item.edit(str(new_value))` runs (the
item object is updated in the heap, since it is shared), the parent is
re-expanded on edit success, and the method returns `True`. -/
def TreeItemModel.setData {α : Type} (m : TreeItemModel α)
    (idx : ModelIndex) (truthy : Bool) (new_value : String) :
    Except PyExc (Bool × TreeItemModel α) :=
  if truthy = false then .ok (false, m)
  else
    match dictGet m.idx_to_item idx with
    | none => .error (PyExc.mk "KeyError")
    | some oid =>
      match dictGet m.heap oid with
      | none => .error (PyExc.mk "dangling item pointer")
      | some item =>
        let r := item.edit new_value
        let m2 := { m with heap := dictSet m.heap oid r.2 }
        if r.1 then
          match m2.expand r.2.parent with
          | .error e => .error e
          | .ok m3 => .ok (true, m3)
        else .ok (true, m2)

/-- The wrapped `QMainWindow`, as far as this code observes it: its
`isActiveWindow()` state. -/
structure QMainWindowV where
  isActiveWindow : Bool

/-- One call forwarded to the toolkit by `WindowController`: the wrapped
window's `show()`, `activateWindow()`, `raise_()`, `close()`, or the
application-wide `QApplication.processEvents()`. -/
inductive WinCall where
  | wshow
  | wactivate
  | wraise
  | wprocessEvents
  | wclose
deriving DecidableEq

/-- `WindowController(w_window)`: wrapper around the main Qt window. -/
structure WindowController where
  w_window : QMainWindowV

/-- `WindowController.show()`: the sequence of toolkit calls it makes, in
order: `self._w_window.show()`, `self._w_window.activateWindow()`,
`self._w_window.raise_()`, `QApplication.processEvents()`. -/
def WindowController.show (_ : WindowController) : List WinCall :=
  [WinCall.wshow, WinCall.wactivate, WinCall.wraise, WinCall.wprocessEvents]

/-- `WindowController.close()`: the sequence of toolkit calls it makes:
`self._w_window.close()`. -/
def WindowController.close (_ : WindowController) : List WinCall :=
  [WinCall.wclose]

/-- `WindowController.has_focus()`: `self._w_window.isActiveWindow()`. -/
def WindowController.has_focus (c : WindowController) : Bool :=
  c.w_window.isActiveWindow

theorem genRow_row_length {α : Type} (cols : List (TreeColumn α))
    (idx : ModelIndex) (data : α) (oid0 : Nat) :
    (genRow cols idx data oid0).1.length = cols.length := by
  induction cols generalizing oid0 with
  | nil => simp [genRow]
  | cons c rest ih => simp [genRow, ih]

theorem genRows_length {α : Type} (cols : List (TreeColumn α))
    (idx : ModelIndex) (datas : List α) (oid0 : Nat) :
    (genRows cols idx datas oid0).1.length = datas.length := by
  induction datas generalizing oid0 with
  | nil => simp [genRows]
  | cons d rest ih => simp [genRows, ih]

theorem genRows_row_lengths {α : Type} (cols : List (TreeColumn α))
    (idx : ModelIndex) (datas : List α) (oid0 : Nat) :
    ∀ row ∈ (genRows cols idx datas oid0).1, row.length = cols.length := by
  induction datas generalizing oid0 with
  | nil => simp [genRows]
  | cons d rest ih =>
    intro row hrow
    simp only [genRows, List.mem_cons] at hrow
    rcases hrow with h | h
    · rw [h]
      exact genRow_row_length cols idx d oid0
    · exact ih _ row h

theorem editFailed_role_data {α : Type} (it : TreeItem α) :
    (it.editFailed).role_data ForegroundRole
      = some (RoleValue.color (mkQColor 192 0 0)) := by
  simp [TreeItem.editFailed, TreeItem.set_color, TreeItem.role_data, dictGet_dictSet_self]

/-- C1: `TreeItem.edit(new_value)` and `TreeItem.delete()` never let an
exception escape (their whole bodies sit under `except Exception`, so the
embedding is a total function into `Bool × TreeItem`): with an absent or
raising callback they return `False` and leave the item's
`ForegroundRole` data set to `QColor(192, 0, 0)`; with a normally
completing callback they return `True`. -/
theorem treeItem_edit_delete_swallow_exceptions {α : Type}
    (it : TreeItem α) (v : String) :
    ((it.edit_cb = none ∨ ∃ cb e, it.edit_cb = some cb ∧ cb v = Except.error e) →
      (it.edit v).1 = false ∧
      (it.edit v).2.role_data ForegroundRole = some (RoleValue.color (mkQColor 192 0 0))) ∧
    ((∃ cb, it.edit_cb = some cb ∧ cb v = Except.ok ()) → (it.edit v).1 = true) ∧
    ((it.delete_cb = none ∨ ∃ cb e, it.delete_cb = some cb ∧ cb () = Except.error e) →
      it.delete.1 = false ∧
      it.delete.2.role_data ForegroundRole = some (RoleValue.color (mkQColor 192 0 0))) ∧
    ((∃ cb, it.delete_cb = some cb ∧ cb () = Except.ok ()) → it.delete.1 = true) := by
  refine ⟨?_, ?_, ?_, ?_⟩
  · rintro (hnone | ⟨cb, e, hcb, herr⟩)
    · simp [TreeItem.edit, hnone, editFailed_role_data]
    · simp [TreeItem.edit, hcb, herr, editFailed_role_data]
  · rintro ⟨cb, hcb, hok⟩
    simp [TreeItem.edit, hcb, hok]
  · rintro (hnone | ⟨cb, e, hcb, herr⟩)
    · simp [TreeItem.delete, hnone, editFailed_role_data]
    · simp [TreeItem.delete, hcb, herr, editFailed_role_data]
  · rintro ⟨cb, hcb, hok⟩
    simp [TreeItem.delete, hcb, hok]

/-- A concrete item whose edit callback raises and whose delete callback
is absent. -/
def failItem : TreeItem Nat :=
  { TreeItem.new ModelIndex.root with
    edit_cb := some (fun _ => Except.error (PyExc.mk "ValueError")) }

/-- A concrete item whose callbacks both complete normally. -/
def okItem : TreeItem Nat :=
  { TreeItem.new ModelIndex.root with
    edit_cb := some (fun _ => Except.ok ())
    delete_cb := some (fun _ => Except.ok ()) }

theorem treeItem_edit_delete_swallow_exceptions_witness :
    ((failItem.edit "x").1 = false ∧
      (failItem.edit "x").2.role_data ForegroundRole
        = some (RoleValue.color (mkQColor 192 0 0))) ∧
    failItem.delete.1 = false ∧
    (okItem.edit "x").1 = true ∧
    okItem.delete.1 = true := by
  have hf := treeItem_edit_delete_swallow_exceptions failItem "x"
  have ho := treeItem_edit_delete_swallow_exceptions okItem "x"
  exact ⟨hf.1 (Or.inr ⟨_, _, rfl, rfl⟩),
         (hf.2.2.1 (Or.inl rfl)).1,
         ho.2.1 ⟨_, rfl, rfl⟩,
         ho.2.2.2 ⟨_, rfl, rfl⟩⟩

/-- C5: role data obeys get-after-set on a `TreeItem`: each setter stores
exactly its documented value under its documented role, leaves every
other role unchanged, and a role never set reads back as `None` (a fresh
item has an empty role dict, and setters touch only their own role). -/
theorem treeItem_role_data_get_after_set {α : Type} (it : TreeItem α)
    (t s : String) (r g b : Nat) (i : QIconV) (p : ModelIndex) (role : Nat) :
    ((it.set_text t).role_data DisplayRole = some (RoleValue.str t) ∧
      (role ≠ DisplayRole → (it.set_text t).role_data role = it.role_data role)) ∧
    ((it.set_color r g b).role_data ForegroundRole
        = some (RoleValue.color (mkQColor r g b)) ∧
      (role ≠ ForegroundRole → (it.set_color r g b).role_data role = it.role_data role)) ∧
    ((it.set_tooltip s).role_data ToolTipRole
        = some (RoleValue.str ("<pre>" ++ s ++ "</pre>")) ∧
      (role ≠ ToolTipRole → (it.set_tooltip s).role_data role = it.role_data role)) ∧
    ((it.set_icon i).role_data DecorationRole = some (RoleValue.icon i) ∧
      (role ≠ DecorationRole → (it.set_icon i).role_data role = it.role_data role)) ∧
    (TreeItem.new p : TreeItem α).role_data role = none := by
  refine ⟨⟨?_, ?_⟩, ⟨?_, ?_⟩, ⟨?_, ?_⟩, ⟨?_, ?_⟩, ?_⟩
  · simp [TreeItem.set_text, TreeItem.role_data, dictGet_dictSet_self]
  · intro h
    simp [TreeItem.set_text, TreeItem.role_data, dictGet_dictSet_ne _ _ _ _ h]
  · simp [TreeItem.set_color, TreeItem.role_data, dictGet_dictSet_self]
  · intro h
    simp [TreeItem.set_color, TreeItem.role_data, dictGet_dictSet_ne _ _ _ _ h]
  · simp [TreeItem.set_tooltip, TreeItem.role_data, dictGet_dictSet_self]
  · intro h
    simp [TreeItem.set_tooltip, TreeItem.role_data, dictGet_dictSet_ne _ _ _ _ h]
  · simp [TreeItem.set_icon, TreeItem.role_data, dictGet_dictSet_self]
  · intro h
    simp [TreeItem.set_icon, TreeItem.role_data, dictGet_dictSet_ne _ _ _ _ h]
  · simp [TreeItem.new, TreeItem.role_data, dictGet]

theorem treeItem_role_data_get_after_set_witness :
    ((TreeItem.new ModelIndex.root : TreeItem Nat).set_text "a").role_data DisplayRole
      = some (RoleValue.str "a") ∧
    ((TreeItem.new ModelIndex.root : TreeItem Nat).set_text "a").role_data ForegroundRole
      = (TreeItem.new ModelIndex.root : TreeItem Nat).role_data ForegroundRole ∧
    (TreeItem.new ModelIndex.root : TreeItem Nat).role_data ToolTipRole = none := by
  have h := treeItem_role_data_get_after_set
    (TreeItem.new ModelIndex.root : TreeItem Nat) "a" "b" 1 2 3
    ⟨[], TRANSPARENT_COLOR⟩ ModelIndex.root ForegroundRole
  have h' := treeItem_role_data_get_after_set
    (TreeItem.new ModelIndex.root : TreeItem Nat) "a" "b" 1 2 3
    ⟨[], TRANSPARENT_COLOR⟩ ModelIndex.root ToolTipRole
  exact ⟨h.1.1, h.1.2 (by decide), h'.2.2.2.2⟩

/-- C10 counterexample: `render` is not memoized over every declared
input datum.  `b"x"` and `bytearray(b"x")` are equal data under Python
`==`, yet a first `render` call on the `bytearray` raises `TypeError`
(it is unhashable, and the cache membership test hashes it), and so does
a second call on the `bytearray` after a successful first call on the
equal `bytes` value — no cached icon is ever returned for a `bytearray`
input. -/
theorem svgIconRenderer_render_bytearray_raises :
    XMLIconData.pyEq (XMLIconData.bytes [120]) (XMLIconData.bytearray [120]) = true ∧
    (SVGIconRenderer.init TRANSPARENT_COLOR).render (XMLIconData.bytearray [120])
      = Except.error (PyExc.mk "TypeError") ∧
    (match (SVGIconRenderer.init TRANSPARENT_COLOR).render (XMLIconData.bytes [120]) with
     | .ok res => res.2.1.render (XMLIconData.bytearray [120])
     | .error e => .error e)
      = Except.error (PyExc.mk "TypeError") :=
  ⟨rfl, rfl, rfl⟩

/-- C10 amended: `SVGIconRenderer.render` is memoized over the hashable
input types (`bytes` and `str`): an immediately repeated `render` call
with the same data returns the icon the first call returned, performs no
new rendering (`_render` is not invoked), and leaves the renderer's
cache unchanged.  A `bytearray` input instead raises `TypeError` at the
cache membership test on every call. -/
theorem svgIconRenderer_render_memoized (r : SVGIconRenderer) (d : XMLIconData)
    (h : d.hashable = true) :
    ∃ i r1 b, r.render d = Except.ok (i, r1, b) ∧
      r1.render d = Except.ok (i, r1, false) := by
  cases hc : dictGet r.cache d with
  | some icon =>
    exact ⟨icon, r, false, by simp [SVGIconRenderer.render, h, hc],
           by simp [SVGIconRenderer.render, h, hc]⟩
  | none =>
    refine ⟨r.renderIcon d, { r with cache := dictSet r.cache d (r.renderIcon d) }, true,
      by simp [SVGIconRenderer.render, h, hc], ?_⟩
    simp [SVGIconRenderer.render, h, dictGet_dictSet_self]

theorem svgIconRenderer_render_memoized_witness :
    ∃ i r1 b,
      (SVGIconRenderer.init TRANSPARENT_COLOR).render (XMLIconData.str "x")
        = Except.ok (i, r1, b) ∧
      r1.render (XMLIconData.str "x") = Except.ok (i, r1, false) :=
  svgIconRenderer_render_memoized (SVGIconRenderer.init TRANSPARENT_COLOR)
    (XMLIconData.str "x") rfl

/-- A fresh default renderer after rendering the `str` input `"x"` and
then the `bytes` input `b"x"` (the UTF-8 encoding of `"x"`); both inputs
are hashable, so both calls complete normally. -/
def svgTwoRenders : SVGIconRenderer :=
  match (SVGIconRenderer.init TRANSPARENT_COLOR).render (XMLIconData.str "x") with
  | .error _ => SVGIconRenderer.init TRANSPARENT_COLOR
  | .ok res1 =>
    match res1.2.1.render (XMLIconData.bytes [120]) with
    | .error _ => res1.2.1
    | .ok res2 => res2.2.1

/-- C3 counterexample: the cache is NOT a single-entry dictionary keyed
by raw input bytes.  After rendering the `str` `"x"` and then the `bytes`
`b"x"`, the cache holds two entries, and the first is keyed by the `str`
input itself, not by its raw bytes (a Python `str` never equals a `bytes`
object, so `"x"` and `b"x"` are distinct keys). -/
theorem svgIconRenderer_cache_not_single_entry :
    ¬ svgTwoRenders.cache.length ≤ 1 ∧
    svgTwoRenders.cache.map Prod.fst
      = [XMLIconData.str "x", XMLIconData.bytes [120]] := by
  constructor
  · decide
  · decide

/-- C3 amended: the SVG icon rendering cache is a memoized dictionary
keyed by the hashable input data value exactly as it was given (a `str`
input is stored under the `str` itself, not under its encoded bytes): a
hit returns the stored icon and changes nothing; a miss renders, appends
one entry under the given input value, and the cache never evicts, so it
holds one entry per distinct input rendered so far (not at most one);
the union's remaining input type, `bytearray`, is unhashable and raises
`TypeError` at the cache membership test before any caching happens. -/
theorem svgIconRenderer_cache_keyed_by_given_input
    (r : SVGIconRenderer) (d : XMLIconData) :
    (d.hashable = false → r.render d = Except.error (PyExc.mk "TypeError")) ∧
    (d.hashable = true →
      ∃ i r1 fresh, r.render d = Except.ok (i, r1, fresh) ∧
        dictGet r1.cache d = some i ∧
        (dictGet r.cache d = none →
          r1.cache = dictSet r.cache d (r.renderIcon d) ∧
          r1.cache.length = r.cache.length + 1 ∧
          fresh = true) ∧
        (∀ i0, dictGet r.cache d = some i0 →
          r1 = r ∧ i = i0 ∧ fresh = false)) := by
  constructor
  · intro h
    simp [SVGIconRenderer.render, h]
  · intro h
    cases hc : dictGet r.cache d with
    | some icon =>
      refine ⟨icon, r, false, by simp [SVGIconRenderer.render, h, hc], hc, ?_, ?_⟩
      · intro hn
        exact absurd hn (by simp [hc])
      · intro i0 hi0
        cases hi0
        exact ⟨rfl, rfl, rfl⟩
    | none =>
      refine ⟨r.renderIcon d, { r with cache := dictSet r.cache d (r.renderIcon d) }, true,
        by simp [SVGIconRenderer.render, h, hc], dictGet_dictSet_self _ _ _, ?_, ?_⟩
      · intro _
        exact ⟨rfl, length_dictSet_fresh _ _ _ hc, rfl⟩
      · intro i0 hi0
        exact absurd hi0 (by simp)

theorem svgIconRenderer_cache_keyed_by_given_input_witness :
    ∃ i r1 fresh,
      (SVGIconRenderer.init TRANSPARENT_COLOR).render (XMLIconData.str "x")
        = Except.ok (i, r1, fresh) ∧
      dictGet r1.cache (XMLIconData.str "x") = some i ∧
      r1.cache.length = 1 ∧
      fresh = true := by
  obtain ⟨i, r1, fresh, hr, hget, hmiss, _⟩ :=
    (svgIconRenderer_cache_keyed_by_given_input
      (SVGIconRenderer.init TRANSPARENT_COLOR) (XMLIconData.str "x")).2 rfl
  obtain ⟨_, hlen, hfr⟩ := hmiss rfl
  exact ⟨i, r1, fresh, hr, hget, by simpa [SVGIconRenderer.init] using hlen, hfr⟩

/-- C6: `WindowController` forwards window lifecycle calls to the wrapped
main window: `show()` makes exactly the calls `show`, `activateWindow`,
`raise_` in that order, followed by `QApplication.processEvents()`;
`close()` makes exactly the call `close`; and `has_focus()` returns
exactly the wrapped window's `isActiveWindow()` result. -/
theorem windowController_forwards_lifecycle (w : QMainWindowV) :
    (WindowController.mk w).show
      = [WinCall.wshow, WinCall.wactivate, WinCall.wraise, WinCall.wprocessEvents] ∧
    (WindowController.mk w).close = [WinCall.wclose] ∧
    (WindowController.mk w).has_focus = w.isActiveWindow :=
  ⟨rfl, rfl, rfl⟩

/-- C7: for a valid section of the horizontal header, `headerData`
returns the column's heading for `DisplayRole` and
`QSize(width, header_height)` for `SizeHintRole`; any other role, and any
section of the vertical orientation, yields `None` (the Python function
falls off its end). -/
theorem treeItemModel_headerData_cases {α : Type} (m : TreeItemModel α)
    (sec : Nat) (h : sec < m.columns.length) (role : Nat) :
    m.headerData sec QtOrientation.horizontal DisplayRole
      = Except.ok (some (RoleValue.str (m.columns.get ⟨sec, h⟩).heading)) ∧
    m.headerData sec QtOrientation.horizontal SizeHintRole
      = Except.ok (some (RoleValue.size (m.columns.get ⟨sec, h⟩).width m.header_height)) ∧
    (role ≠ DisplayRole → role ≠ SizeHintRole →
      m.headerData sec QtOrientation.horizontal role = Except.ok none) ∧
    m.headerData sec QtOrientation.vertical role = Except.ok none := by
  have hopt : pyIndexOpt m.columns (sec : Int) = some (m.columns.get ⟨sec, h⟩) := by
    simp [pyIndexOpt, List.getElem?_eq_getElem h, List.get_eq_getElem]
  have hg : pyIndexE m.columns (sec : Int) = Except.ok (m.columns.get ⟨sec, h⟩) := by
    simp [pyIndexE, hopt]
  refine ⟨?_, ?_, ?_, ?_⟩
  · simp [TreeItemModel.headerData, hg]
  · simp [TreeItemModel.headerData, hg, DisplayRole, SizeHintRole]
  · intro h1 h2
    simp [TreeItemModel.headerData, h1, h2]
  · simp [TreeItemModel.headerData]

/-- A concrete one-column model for evaluating header and index
behaviour. -/
def c7col : TreeColumn Nat :=
  { heading := "Key", width := 30, format := fun it _ => it }

/-- A concrete model over `c7col` with header height 25. -/
def c7model : TreeItemModel Nat :=
  TreeItemModel.init (TreeItem.new ModelIndex.root) [c7col] 200 25

theorem treeItemModel_headerData_cases_witness :
    c7model.headerData 0 QtOrientation.horizontal DisplayRole
      = Except.ok (some (RoleValue.str "Key")) ∧
    c7model.headerData 0 QtOrientation.horizontal SizeHintRole
      = Except.ok (some (RoleValue.size 30 25)) ∧
    c7model.headerData 0 QtOrientation.horizontal ForegroundRole = Except.ok none ∧
    c7model.headerData 0 QtOrientation.vertical DisplayRole = Except.ok none := by
  have h := treeItemModel_headerData_cases c7model 0 (by decide) ForegroundRole
  have h' := treeItemModel_headerData_cases c7model 0 (by decide) DisplayRole
  exact ⟨h.1, h.2.1, h.2.2.1 (by decide) (by decide), h'.2.2.2⟩

/-- C9: `TreeItemModel.index` never raises: only `IndexError` can occur
in its body and the handler catches it.  When the materialized child grid
of `parent` has no entry at `(row, col)` (under Python indexing, where a
negative index counts from the end), the invalid root index is returned
with the model untouched; otherwise `createIndex(row, col, item)` is
returned (never equal to the root sentinel) and the index-to-item mapping
is recorded. -/
theorem treeItemModel_index_total_safe {α : Type} (m : TreeItemModel α)
    (row col : Int) (parent : ModelIndex) :
    (m.gridChildAt parent row col = none →
      m.index row col parent = (ModelIndex.root, m)) ∧
    (∀ oid, m.gridChildAt parent row col = some oid →
      m.index row col parent
        = (ModelIndex.mk row col oid,
           { m with idx_to_item := dictSet m.idx_to_item (ModelIndex.mk row col oid) oid }) ∧
      ModelIndex.mk row col oid ≠ ModelIndex.root) := by
  constructor
  · intro h
    unfold TreeItemModel.gridChildAt at h
    unfold TreeItemModel.index TreeItemModel.indexInner
    cases h1 : pyIndexOpt (dictGetD m.idx_to_children parent []) row with
    | none => simp [pyIndexE, h1]
    | some rowList =>
      rw [h1] at h
      simp only [Option.some_bind] at h
      simp [pyIndexE, h1, h]
  · intro oid h
    unfold TreeItemModel.gridChildAt at h
    cases h1 : pyIndexOpt (dictGetD m.idx_to_children parent []) row with
    | none =>
      rw [h1] at h
      simp at h
    | some rowList =>
      rw [h1] at h
      simp only [Option.some_bind] at h
      unfold TreeItemModel.index TreeItemModel.indexInner
      refine ⟨by simp [pyIndexE, h1, h], by simp⟩

/-- A concrete model whose root has one materialized child row holding
one item (object id 1). -/
def w9model : TreeItemModel Nat :=
  { heap := [(0, TreeItem.new ModelIndex.root), (1, TreeItem.new ModelIndex.root)]
    idx_to_item := [(ModelIndex.root, 0)]
    idx_to_children := [(ModelIndex.root, [[1]])]
    columns := [c7col]
    child_limit := 200
    header_height := 25
    next_oid := 2
    notifications := [] }

theorem treeItemModel_index_total_safe_witness :
    w9model.index 5 0 ModelIndex.root = (ModelIndex.root, w9model) ∧
    w9model.index 0 0 ModelIndex.root
      = (ModelIndex.mk 0 0 1,
         { w9model with
             idx_to_item := dictSet w9model.idx_to_item (ModelIndex.mk 0 0 1) 1 }) := by
  have hmiss := (treeItemModel_index_total_safe w9model 5 0 ModelIndex.root).1 (by decide)
  have hhit := (treeItemModel_index_total_safe w9model 0 0 ModelIndex.root).2 1 (by decide)
  exact ⟨hmiss, hhit.1⟩

/-- C2: `expand` is a bounded-slice materialization: for an index whose
item yields `N` child data objects, after `expand(idx)` the model holds
exactly `min(N, child_limit)` child rows under `idx` — so
`rowCount(idx) = min(N, child_limit)` and never more than the
`child_limit` given at construction — and each row holds one item per
column. -/
theorem treeItemModel_expand_bounded_slice {α : Type} (m : TreeItemModel α)
    (idx : ModelIndex) (oid : Nat) (item : TreeItem α)
    (h1 : dictGet m.idx_to_item idx = some oid)
    (h2 : dictGet m.heap oid = some item) :
    ∃ m', m.expand idx = Except.ok m' ∧
      m'.rowCount idx = min item.children.length m.child_limit ∧
      ∀ row ∈ dictGetD m'.idx_to_children idx [], row.length = m.columns.length := by
  unfold TreeItemModel.expand
  by_cases hcr : (dictGetD m.idx_to_children idx []).length = 0
  · simp only [hcr, if_pos, h1, h2]
    refine ⟨_, rfl, ?_, ?_⟩
    · simp [TreeItemModel.rowCount, dictGetD, dictGet_dictSet_self, genRows_length,
            List.length_take, Nat.min_comm]
    · intro row hrow
      simp only [dictGetD, dictGet_dictSet_self, Option.getD_some] at hrow
      exact genRows_row_lengths _ _ _ _ row hrow
  · simp only [hcr, if_neg, if_false, h1, h2]
    refine ⟨_, rfl, ?_, ?_⟩
    · simp [TreeItemModel.rowCount, dictGetD, dictGet_dictSet_self, genRows_length,
            List.length_take, Nat.min_comm]
    · intro row hrow
      simp only [dictGetD, dictGet_dictSet_self, Option.getD_some] at hrow
      exact genRows_row_lengths _ _ _ _ row hrow

/-- A concrete root item yielding two child data objects. -/
def c2root : TreeItem Nat :=
  { (TreeItem.new ModelIndex.root : TreeItem Nat) with children := [7, 8] }

/-- A concrete one-column model over `c2root` with the default child
limit of 200. -/
def c2model : TreeItemModel Nat :=
  TreeItemModel.init c2root [c7col] 200 25

theorem treeItemModel_expand_bounded_slice_witness :
    ∃ m', c2model.expand ModelIndex.root = Except.ok m' ∧
      m'.rowCount ModelIndex.root = 2 ∧
      ∀ row ∈ dictGetD m'.idx_to_children ModelIndex.root [], row.length = 1 := by
  obtain ⟨m', he, hcount, hrows⟩ :=
    treeItemModel_expand_bounded_slice c2model ModelIndex.root 0 c2root rfl rfl
  refine ⟨m', he, ?_, ?_⟩
  · simpa [c2root] using hcount
  · simpa [c2model, TreeItemModel.init] using hrows

/-- A concrete root item yielding exactly one child data object. -/
def c4root : TreeItem Nat :=
  { (TreeItem.new ModelIndex.root : TreeItem Nat) with children := [7] }

/-- A concrete one-column model over `c4root`. -/
def c4model : TreeItemModel Nat :=
  TreeItemModel.init c4root [c7col] 200 25

/-- Evaluation harness for C4: expand the root of `c4model` twice; record
the row count the grid holds between the two calls (the number of rows
the second expand removes and then re-inserts) together with the full
notification trace. -/
def c4traceAndCount : Option (Nat × List Notif) :=
  match c4model.expand ModelIndex.root with
  | .error _ => none
  | .ok m1 =>
    match m1.expand ModelIndex.root with
    | .error _ => none
    | .ok m2 => some (m1.rowCount ModelIndex.root, m2.notifications)

/-- C4 evaluated at the failing input: the grid holds exactly `k = 1` row
when the second expand runs, yet the removal of that one row is
bracketed by `beginRemoveRows(root, 0, 1)` — a range that, under Qt's
inclusive begin/end convention, covers rows 0 through 1, i.e. two rows,
not exactly rows 0 through k-1 = 0.  Likewise every insertion of `m = 1`
row is bracketed by `beginInsertRows(root, 0, 1)` instead of
`(root, 0, 0)`: the code passes the row count as the inclusive `last`
argument. -/
theorem treeItemModel_expand_notification_off_by_one :
    c4traceAndCount
      = some (1,
        [Notif.beginInsertRows ModelIndex.root 0 1, Notif.endInsertRows,
         Notif.beginRemoveRows ModelIndex.root 0 1, Notif.endRemoveRows,
         Notif.beginInsertRows ModelIndex.root 0 1, Notif.endInsertRows]) := by
  decide

/-- C8: `setData` returns `False` exactly when the new value is falsy
(leaving the model untouched); every normal return on a truthy value is
`True` whether or not the edit succeeded, and the edited item's parent is
re-expanded only on edit success (on failure only the item's own state —
its red recoloring — changes; no expansion runs).  The new value is a
Python `Any`; the method observes only its truthiness and its `str()`
image, which the `t`/`v` arguments model. -/
theorem treeItemModel_setData_truthiness {α : Type} (m : TreeItemModel α)
    (idx : ModelIndex) (t : Bool) (v : String) (oid : Nat) (item : TreeItem α)
    (h1 : dictGet m.idx_to_item idx = some oid)
    (h2 : dictGet m.heap oid = some item) :
    (t = false → m.setData idx t v = Except.ok (false, m)) ∧
    (∀ b m', m.setData idx t v = Except.ok (b, m') → (b = false ↔ t = false)) ∧
    (t = true →
      ((item.edit v).1 = false →
        m.setData idx t v
          = Except.ok (true, { m with heap := dictSet m.heap oid (item.edit v).2 })) ∧
      ((item.edit v).1 = true →
        m.setData idx t v
          = (match ({ m with heap := dictSet m.heap oid (item.edit v).2 }).expand
               (item.edit v).2.parent with
             | .error e => .error e
             | .ok m3 => Except.ok (true, m3)))) := by
  refine ⟨?_, ?_, ?_⟩
  · intro ht
    simp [TreeItemModel.setData, ht]
  · intro b m' hbm
    cases t with
    | false =>
      simp only [TreeItemModel.setData, if_pos] at hbm
      cases hbm
      simp
    | true =>
      simp only [TreeItemModel.setData, Bool.true_eq_false, if_neg, h1, h2] at hbm
      cases hr : (item.edit v).1 with
      | false =>
        rw [hr] at hbm
        simp only [Bool.false_eq_true, if_neg] at hbm
        cases hbm
        simp
      | true =>
        rw [hr] at hbm
        simp only [if_pos] at hbm
        cases hx : ({ m with heap := dictSet m.heap oid (item.edit v).2 }).expand
            (item.edit v).2.parent with
        | error e =>
          rw [hx] at hbm
          cases hbm
        | ok m3 =>
          rw [hx] at hbm
          cases hbm
          simp
  · intro ht
    subst ht
    constructor
    · intro hr
      simp [TreeItemModel.setData, h1, h2, hr]
    · intro hr
      simp [TreeItemModel.setData, h1, h2, hr]

/-- A concrete root item whose edit callback raises. -/
def c8item : TreeItem Nat :=
  { (TreeItem.new ModelIndex.root : TreeItem Nat) with
    edit_cb := some (fun _ => Except.error (PyExc.mk "ValueError")) }

/-- A concrete model over `c8item`. -/
def c8model : TreeItemModel Nat :=
  TreeItemModel.init c8item [c7col] 200 25

theorem treeItemModel_setData_truthiness_witness :
    c8model.setData ModelIndex.root false "x" = Except.ok (false, c8model) ∧
    c8model.setData ModelIndex.root true "x"
      = Except.ok (true,
          { c8model with heap := dictSet c8model.heap 0 (c8item.edit "x").2 }) := by
  have h := treeItemModel_setData_truthiness c8model ModelIndex.root false "x" 0 c8item
    rfl rfl
  have h' := treeItemModel_setData_truthiness c8model ModelIndex.root true "x" 0 c8item
    rfl rfl
  exact ⟨h.1 rfl, (h'.2.2 rfl).1 rfl⟩
